import Mathlib

/-!
Shallow embedding of the rusted-doom-launcher core in Lean 4.

Text is modelled as `List Char` and raw bytes as `List Nat` (each element
below 256).  JavaScript `Map` objects are modelled as association lists in
insertion order, with `alSet` replacing the first binding in place (the
JS `Map.set` semantics) and `alLookup` returning the first binding.
-/

namespace RDL

/-- JS Map model: replace the first binding for the key, else append. -/
def alSet {α β : Type} [DecidableEq α] (k : α) (v : β) : List (α × β) → List (α × β)
  | [] => [(k, v)]
  | (k', v') :: rest => if k' = k then (k, v) :: rest else (k', v') :: alSet k v rest

/-- JS Map lookup: first binding for the key. -/
def alLookup {α β : Type} [DecidableEq α] (k : α) : List (α × β) → Option β
  | [] => none
  | (k', v') :: rest => if k' = k then some v' else alLookup k rest

/-- JS Map has. -/
def alHas {α β : Type} [DecidableEq α] (k : α) (m : List (α × β)) : Bool :=
  (alLookup k m).isSome

/-- JS Map delete: drop the binding for the key. -/
def alErase {α β : Type} [DecidableEq α] (k : α) (m : List (α × β)) : List (α × β) :=
  m.filter (fun p => decide (p.1 ≠ k))

/-- Little-endian 32-bit read, total form (out-of-range bytes read as 0). -/
def le32At (data : List Nat) (i : Nat) : Nat :=
  data.getD i 0 + 256 * data.getD (i + 1) 0 + 65536 * data.getD (i + 2) 0 +
    16777216 * data.getD (i + 3) 0

/-- DataView.getUint32 model: `none` is the RangeError raised on reads past the end. -/
def getU32 (data : List Nat) (i : Nat) : Option Nat :=
  if i + 4 ≤ data.length then some (le32At data i) else none

/-- The 4 ASCII byte values of the magic string IWAD. -/
def iwadMagic : List Nat := [73, 87, 65, 68]

/-- The 4 ASCII byte values of the magic string PWAD. -/
def pwadMagic : List Nat := [80, 87, 65, 68]

/-- One directory record of a WAD archive (interface WadEntry in wadParser.ts). -/
structure WadEntry where
  name : List Char
  offset : Nat
  size : Nat
deriving DecidableEq, Repr

/-- Name read of a directory entry: 8 bytes at entryOffset+8, stopping at the
first zero byte, each byte decoded by String.fromCharCode. -/
def nameAt (data : List Nat) (eo : Nat) : List Char :=
  (((data.drop (eo + 8)).take 8).takeWhile (fun b => b ≠ 0)).map Char.ofNat

/-- The directory loop of parseWadDirectory: for each of the remaining `n`
indices starting at `i`, stop (non-fatally) when the 16-byte entry would read
past the buffer, otherwise read offset, size and name.  An unguarded DataView
read past the end would be a RangeError, modelled by the error case. -/
def wadGo (data : List Nat) (dirOff : Nat) : Nat → Nat → Except String (List WadEntry)
  | 0, _ => .ok []
  | n + 1, i =>
    let eo := dirOff + i * 16
    if eo + 16 > data.length then .ok []
    else
      match getU32 data eo, getU32 data (eo + 4) with
      | some off, some sz =>
        (wadGo data dirOff n (i + 1)).map (fun es => ⟨nameAt data eo, off, sz⟩ :: es)
      | _, _ => .error "RangeError"

/-- parseWadDirectory from src/lib/wadParser.ts: header length check, magic
check, then the 16-byte-entry directory loop. -/
def parseWadDirectory (data : List Nat) : Except String (List WadEntry) :=
  if data.length < 12 then .error "Invalid WAD file: too short"
  else if data.take 4 ≠ iwadMagic ∧ data.take 4 ≠ pwadMagic then
    .error "Invalid WAD magic"
  else
    wadGo data (le32At data 8) (le32At data 4) 0

/-- Success test for Except. -/
def isOkE {ε α : Type} : Except ε α → Bool
  | .ok _ => true
  | .error _ => false

/-! ### JavaScript string primitives -/

/-- The character class of the regex escape `\s` together with the characters
removed by String.prototype.trim (ECMAScript WhiteSpace and LineTerminator). -/
def jsWhite (c : Char) : Bool :=
  c.toNat = 9 ∨ c.toNat = 10 ∨ c.toNat = 11 ∨ c.toNat = 12 ∨ c.toNat = 13 ∨
  c.toNat = 32 ∨ c.toNat = 160 ∨ c.toNat = 0x1680 ∨
  (0x2000 ≤ c.toNat ∧ c.toNat ≤ 0x200A) ∨ c.toNat = 0x2028 ∨ c.toNat = 0x2029 ∨
  c.toNat = 0x202F ∨ c.toNat = 0x205F ∨ c.toNat = 0x3000 ∨ c.toNat = 0xFEFF

/-- ECMAScript LineTerminator: the characters the regex dot does not match. -/
def isLineTerm (c : Char) : Bool :=
  c.toNat = 10 ∨ c.toNat = 13 ∨ c.toNat = 0x2028 ∨ c.toNat = 0x2029

/-- The character class of the regex escape `\w`. -/
def wordChar (c : Char) : Bool :=
  ('A' ≤ c ∧ c ≤ 'Z') ∨ ('a' ≤ c ∧ c ≤ 'z') ∨ ('0' ≤ c ∧ c ≤ '9') ∨ c = '_'

/-- The character class of the regex escape `\d`. -/
def digitChar (c : Char) : Bool :=
  '0' ≤ c ∧ c ≤ '9'

/-- ASCII lower case of one character, leaving every other character fixed. -/
def asciiLower (c : Char) : Char :=
  if 'A' ≤ c ∧ c ≤ 'Z' then Char.ofNat (c.toNat + 32) else c

/-- Case-insensitive character comparison as performed by a regex `i` flag on
an ASCII pattern character (exact for ASCII patterns, see the canonicalize
step of the ECMAScript pattern semantics). -/
def ciEq (c p : Char) : Bool :=
  asciiLower c = asciiLower p

/-- Case-insensitive test that `s` starts with the ASCII pattern `pat`,
returning the rest of `s` after the matched characters. -/
def ciStarts : List Char → List Char → Option (List Char)
  | [], s => some s
  | _ :: _, [] => none
  | p :: ps, c :: cs => if ciEq c p then ciStarts ps cs else none

/-- String.prototype.toUpperCase on one character, covering the ASCII and
Latin-1 ranges that can appear when bytes are decoded by fromCharCode. -/
def jsUpperChar (c : Char) : List Char :=
  if 'a' ≤ c ∧ c ≤ 'z' then [Char.ofNat (c.toNat - 32)]
  else if c.toNat = 0xDF then ['S', 'S']
  else if c.toNat = 0xB5 then [Char.ofNat 0x39C]
  else if c.toNat = 0xFF then [Char.ofNat 0x178]
  else if 0xE0 ≤ c.toNat ∧ c.toNat ≤ 0xFE ∧ c.toNat ≠ 0xF7 then
    [Char.ofNat (c.toNat - 32)]
  else [c]

/-- String.prototype.toUpperCase over a character list. -/
def jsUpper (s : List Char) : List Char :=
  s.flatMap jsUpperChar

/-- String.prototype.toLowerCase on one character, covering ASCII, Latin-1
and the code points that fold into ASCII. -/
def jsLowerChar (c : Char) : List Char :=
  if 'A' ≤ c ∧ c ≤ 'Z' then [Char.ofNat (c.toNat + 32)]
  else if 0xC0 ≤ c.toNat ∧ c.toNat ≤ 0xDE ∧ c.toNat ≠ 0xD7 then
    [Char.ofNat (c.toNat + 32)]
  else if c.toNat = 0x130 then ['i', Char.ofNat 0x307]
  else if c.toNat = 0x178 then [Char.ofNat 0xFF]
  else if c.toNat = 0x212A then ['k']
  else if c.toNat = 0x212B then [Char.ofNat 0xE5]
  else [c]

/-- String.prototype.toLowerCase over a character list. -/
def jsLower (s : List Char) : List Char :=
  s.flatMap jsLowerChar

/-- Drop the longest suffix whose characters satisfy `p`. -/
def dropTrailing (p : Char → Bool) (s : List Char) : List Char :=
  (s.reverse.dropWhile p).reverse

/-- String.prototype.trim. -/
def jsTrim (s : List Char) : List Char :=
  dropTrailing jsWhite (s.dropWhile jsWhite)

/-- String.prototype.split on a single separator character. -/
def splitSep (sep : Char) : List Char → List (List Char)
  | [] => [[]]
  | c :: rest =>
    if c = sep then [] :: splitSep sep rest
    else
      match splitSep sep rest with
      | h :: t => (c :: h) :: t
      | [] => [[c]]

/-- Exact (case-sensitive) test that `s` starts with `pat`. -/
def startsExact : List Char → List Char → Bool
  | [], _ => true
  | _ :: _, [] => false
  | p :: ps, c :: cs => c = p && startsExact ps cs

/-- String.prototype.includes: `needle` occurs as a contiguous run in `hay`. -/
def hasRun (needle : List Char) : List Char → Bool
  | [] => needle.isEmpty
  | c :: cs => startsExact needle (c :: cs) || hasRun needle cs

/-! ### WHATWG UTF-8 decoding (TextDecoder with replacement on error) -/

/-- The Unicode replacement character. -/
def repl : Char := Char.ofNat 0xFFFD

/-- True for a UTF-8 continuation byte. -/
def isCont (b : Nat) : Bool :=
  0x80 ≤ b ∧ b ≤ 0xBF

/-- One step of the WHATWG UTF-8 decoder on lead byte `b` followed by `rest`:
returns the decoded character (the replacement character on a malformed
sequence) and the number of continuation bytes consumed, so that on error
reprocessing resumes at the offending byte. -/
def utf8Step (b : Nat) (rest : List Nat) : Char × Nat :=
  if b ≤ 0x7F then (Char.ofNat b, 0)
  else if 0xC2 ≤ b ∧ b ≤ 0xDF then
    match rest with
    | c1 :: _ =>
      if isCont c1 then (Char.ofNat ((b - 0xC0) * 64 + (c1 - 0x80)), 1)
      else (repl, 0)
    | [] => (repl, 0)
  else if 0xE0 ≤ b ∧ b ≤ 0xEF then
    match rest with
    | c1 :: r2 =>
      let lo := if b = 0xE0 then 0xA0 else 0x80
      let hi := if b = 0xED then 0x9F else 0xBF
      if lo ≤ c1 ∧ c1 ≤ hi then
        match r2 with
        | c2 :: _ =>
          if isCont c2 then
            (Char.ofNat ((b - 0xE0) * 4096 + (c1 - 0x80) * 64 + (c2 - 0x80)), 2)
          else (repl, 1)
        | [] => (repl, 1)
      else (repl, 0)
    | [] => (repl, 0)
  else if 0xF0 ≤ b ∧ b ≤ 0xF4 then
    match rest with
    | c1 :: r2 =>
      let lo := if b = 0xF0 then 0x90 else 0x80
      let hi := if b = 0xF4 then 0x8F else 0xBF
      if lo ≤ c1 ∧ c1 ≤ hi then
        match r2 with
        | c2 :: r3 =>
          if isCont c2 then
            match r3 with
            | c3 :: _ =>
              if isCont c3 then
                (Char.ofNat ((b - 0xF0) * 262144 + (c1 - 0x80) * 4096 +
                  (c2 - 0x80) * 64 + (c3 - 0x80)), 3)
              else (repl, 2)
            | [] => (repl, 2)
          else (repl, 1)
        | [] => (repl, 1)
      else (repl, 0)
    | [] => (repl, 0)
  else (repl, 0)

/-- Fuelled UTF-8 decoding loop; every step consumes at least the lead byte,
so fuel equal to the input length never runs out before the input does. -/
def utf8DecodeF : Nat → List Nat → List Char
  | 0, _ => []
  | _ + 1, [] => []
  | fuel + 1, b :: rest =>
    let s := utf8Step b rest
    s.1 :: utf8DecodeF fuel (rest.drop s.2)

/-- TextDecoder("utf-8").decode on arbitrary bytes: well-formed sequences are
decoded, malformed ones produce a replacement character and reprocessing
resumes at the offending byte, as in the WHATWG decoder with fatal unset. -/
def utf8Decode (bs : List Nat) : List Char :=
  utf8DecodeF bs.length bs

/-! ### MetadataLumpParser: the four dialects of wadParser.ts -/

/-- A level-name table, the model of a JS `Map<string, string>`. -/
abbrev LMap := List (List Char × List Char)

/-- One attempt of the MAPINFO regex `map\s+(\w+)\s+"([^\x22]+)"` (flags gi)
at the current position: keyword, whitespace, word id, whitespace, quoted
name.  Returns the two captures and the rest of the input after the match.
Maximal munch is exact here because every repeated class is disjoint from
the character that follows it. -/
def matchMapinfoAt (s : List Char) : Option (List Char × List Char × List Char) :=
  match ciStarts ("map".data) s with
  | none => none
  | some r1 =>
    let (w1, r2) := r1.span jsWhite
    if w1.isEmpty then none else
    let (id, r3) := r2.span wordChar
    if id.isEmpty then none else
    let (w2, r4) := r3.span jsWhite
    if w2.isEmpty then none else
    match r4 with
    | '"' :: r5 =>
      let (nm, r6) := r5.span (fun c => c ≠ '"')
      if nm.isEmpty then none else
      match r6 with
      | '"' :: r7 => some (id, nm, r7)
      | _ => none
    | _ => none

/-- Global regex scan: successive leftmost matches, each search resuming at
the end of the previous match, ids upper-cased as in parseMapinfo.  The fuel
argument starts at the input length; every successful match consumes more
than one character, so fuel never runs out before the input does. -/
def mapinfoScanF : Nat → List Char → List (List Char × List Char)
  | 0, _ => []
  | _ + 1, [] => []
  | fuel + 1, c :: cs =>
    match matchMapinfoAt (c :: cs) with
    | some (id, nm, rest) => (jsUpper id, nm) :: mapinfoScanF fuel rest
    | none => mapinfoScanF fuel cs

/-- All matches of the MAPINFO pattern over the whole text, in order. -/
def mapinfoScan (content : List Char) : List (List Char × List Char) :=
  mapinfoScanF content.length content

/-- parseMapinfo from wadParser.ts: every match inserts its upper-cased id
with Map.set, so a later match for the same id overwrites an earlier one. -/
def parseMapinfo (content : List Char) : LMap :=
  (mapinfoScan content).foldl (fun m p => alSet p.1 p.2 m) []

/-- Capture of an unanchored trailing `(.+)` after a greedy `\s*`: if any
character follows the whitespace run the capture reaches from the first
non-whitespace character to the first line terminator, otherwise regex
backtracking hands the last non-terminator whitespace character to the dot. -/
def dotPlus (r : List Char) : Option (List Char) :=
  let (w, rest) := r.span jsWhite
  if rest.isEmpty then
    let w2 := dropTrailing isLineTerm w
    if w2.isEmpty then none else some [w2.getLastD ' ']
  else some (rest.takeWhile (fun c => ¬ isLineTerm c))

/-- The EMAPINFO section header pattern: a whole trimmed line of the shape
left bracket, word id, right bracket. -/
def emapSection (t : List Char) : Option (List Char) :=
  match t with
  | '[' :: rest =>
    let (w, r) := rest.span wordChar
    if w.isEmpty then none else
    match r with
    | [']'] => some w
    | _ => none
  | _ => none

/-- The levelname assignment pattern of EMAPINFO: case-insensitive keyword,
optional whitespace, equals sign, then the `(.+)` capture. -/
def emapNameVal (t : List Char) : Option (List Char) :=
  match ciStarts ("levelname".data) t with
  | none => none
  | some r1 =>
    let (_, r2) := r1.span jsWhite
    match r2 with
    | '=' :: r3 => dotPlus r3
    | _ => none

/-- The dynamic prefix-strip regex of parseEmapinfo: remove a leading
case-insensitive occurrence of the current map id, a colon and any following
whitespace from the value. -/
def stripMapColon (cm v : List Char) : List Char :=
  match ciStarts cm v with
  | some r =>
    match r with
    | ':' :: r2 => r2.dropWhile jsWhite
    | _ => v
  | none => v

/-- One line of the parseEmapinfo state machine: the state is the current
section id (if any) together with the accumulated table. -/
def emapStep (st : Option (List Char) × LMap) (line : List Char) :
    Option (List Char) × LMap :=
  let t := jsTrim line
  match emapSection t with
  | some id => (some (jsUpper id), st.2)
  | none =>
    match st.1 with
    | some cm =>
      match emapNameVal t with
      | some v => (some cm, alSet cm (stripMapColon cm (jsTrim v)) st.2)
      | none => st
    | none => st

/-- parseEmapinfo from wadParser.ts. -/
def parseEmapinfo (content : List Char) : LMap :=
  ((splitSep '\n' content).foldl emapStep (none, [])).2

/-- The UMAPINFO map header pattern: case-insensitive keyword MAP, then at
least one whitespace character, then the word id. -/
def umapMapLine (t : List Char) : Option (List Char) :=
  match ciStarts ("map".data) t with
  | none => none
  | some r1 =>
    let (w, r2) := r1.span jsWhite
    if w.isEmpty then none else
    let (id, _) := r2.span wordChar
    if id.isEmpty then none else some id

/-- Capture of `"?([^\x22]+)"?` after a greedy `\s*`: an optional opening
quote, then the longest run without a quote, with regex backtracking handing
back one whitespace character when the run after the whitespace is empty. -/
def quotedVal (r : List Char) : Option (List Char) :=
  let (w, rest) := r.span jsWhite
  match rest with
  | [] => if w.isEmpty then none else some [w.getLastD ' ']
  | '"' :: t =>
    match t with
    | [] => if w.isEmpty then none else some [w.getLastD ' ']
    | c :: _ =>
      if c = '"' then (if w.isEmpty then none else some [w.getLastD ' '])
      else some (t.takeWhile (fun x => x ≠ '"'))
  | _ :: _ => some (rest.takeWhile (fun x => x ≠ '"'))

/-- The levelname assignment pattern of UMAPINFO with optional quotes. -/
def umapNameVal (t : List Char) : Option (List Char) :=
  match ciStarts ("levelname".data) t with
  | none => none
  | some r1 =>
    let (_, r2) := r1.span jsWhite
    match r2 with
    | '=' :: r3 => quotedVal r3
    | _ => none

/-- One line of the parseUmapinfo state machine; the map header test runs
before the levelname test, as in the source. -/
def umapStep (st : Option (List Char) × LMap) (line : List Char) :
    Option (List Char) × LMap :=
  let t := jsTrim line
  match umapMapLine t with
  | some id => (some (jsUpper id), st.2)
  | none =>
    match st.1 with
    | some cm =>
      match umapNameVal t with
      | some v => (some cm, alSet cm (jsTrim v) st.2)
      | none => st
    | none => st

/-- parseUmapinfo from wadParser.ts. -/
def parseUmapinfo (content : List Char) : LMap :=
  ((splitSep '\n' content).foldl umapStep (none, [])).2

/-! ### extractLevelNamesFromData -/

/-- The four recognised metadata lump names. -/
def mapinfoLumpNames : List (List Char) :=
  ["MAPINFO".data, "ZMAPINFO".data, "EMAPINFO".data, "UMAPINFO".data]

/-- Uint8Array.prototype.slice with clamping at the buffer end. -/
def jsSlice (data : List Nat) (a b : Nat) : List Nat :=
  (data.take b).drop a

/-- Decode one selected lump and parse it with the dialect chosen by the
upper-cased lump name, as in the ternary of extractLevelNamesFromData. -/
def parseLump (data : List Nat) (e : WadEntry) : LMap :=
  let content := utf8Decode (jsSlice data e.offset (e.offset + e.size))
  if jsUpper e.name = "EMAPINFO".data then parseEmapinfo content
  else if jsUpper e.name = "UMAPINFO".data then parseUmapinfo content
  else parseMapinfo content

/-- Insert one pair only when the key is not yet present. -/
def setIfAbsent (m : LMap) (p : List Char × List Char) : LMap :=
  if alHas p.1 m then m else alSet p.1 p.2 m

/-- Merge a parsed lump table into the accumulator, never overwriting. -/
def mergeIfAbsent (acc : LMap) (m : LMap) : LMap :=
  m.foldl setIfAbsent acc

/-- Selection test of the extraction loop: recognised lump name (after upper
casing) and a positive size. -/
def isMapinfoEntry (e : WadEntry) : Bool :=
  mapinfoLumpNames.contains (jsUpper e.name) && decide (0 < e.size)

/-- One directory entry of the extraction loop. -/
def extractStep (data : List Nat) (levels : LMap) (e : WadEntry) : LMap :=
  if isMapinfoEntry e then mergeIfAbsent levels (parseLump data e) else levels

/-- extractLevelNamesFromData from wadParser.ts: parse the directory, then
fold the merge over its entries in directory order. -/
def extractLevelNamesFromData (data : List Nat) : Except String LMap :=
  (parseWadDirectory data).map (fun es => es.foldl (extractStep data) [])

/-- First hit of a key over a list of tables, in order. -/
def firstHit (k : List Char) : List LMap → Option (List Char)
  | [] => none
  | m :: ms =>
    match alLookup k m with
    | some v => some v
    | none => firstHit k ms

/-! ### ConsoleLogClassifier (useGameplayLog / gameplayLogSchema) -/

/-- A classified gameplay event (the discriminated union of
gameplayLogSchema.ts). -/
inductive GameEvent where
  | level_enter (time_ms : Nat) (text mapId mapName : List Char)
  | death (time_ms : Nat) (text cause : List Char)
  | pickup (time_ms : Nat) (text item : List Char)
  | secret (time_ms : Nat) (text : List Char)
  | message (time_ms : Nat) (text : List Char)
deriving DecidableEq, Repr

/-- Second alternative of the level id group: `E\dM\d+`. -/
def mapIdAltE (s : List Char) : Option (List Char × List Char) :=
  match s with
  | e :: d :: m :: rest =>
    if ciEq e 'E' && digitChar d && ciEq m 'M' then
      let (ds, r) := rest.span digitChar
      if ds.isEmpty then none else some (e :: d :: m :: ds, r)
    else none
  | _ => none

/-- The level id group `(MAP\d+|E\dM\d+)` at the start of the line, with the
first alternative tried first; the capture is the matched source text. -/
def mapIdAlt (s : List Char) : Option (List Char × List Char) :=
  match s with
  | m :: a :: p :: rest =>
    if ciEq m 'M' && ciEq a 'A' && ciEq p 'P' then
      let (ds, r) := rest.span digitChar
      if ds.isEmpty then mapIdAltE s else some (m :: a :: p :: ds, r)
    else mapIdAltE s
  | _ => mapIdAltE s

/-- The tail `\s*-\s*(.+)$` of the level enter pattern: the dollar makes the
capture run to the end of the line, so it fails if a line terminator remains;
when nothing follows the second whitespace run, backtracking hands its last
character to the dot provided it is not a terminator. -/
def dashRest (r : List Char) : Option (List Char) :=
  let (_, r2) := r.span jsWhite
  match r2 with
  | '-' :: r3 =>
    let (w, rest4) := r3.span jsWhite
    if rest4.isEmpty then
      match w.getLast? with
      | some c => if isLineTerm c then none else some [c]
      | none => none
    else if rest4.any isLineTerm then none else some rest4
  | _ => none

/-- PATTERNS.LEVEL_ENTER: full-line match returning the two captures. -/
def levelEnterMatch (s : List Char) : Option (List Char × List Char) :=
  match mapIdAlt s with
  | none => none
  | some (id, r) =>
    match dashRest r with
    | none => none
    | some nm => some (id, nm)

/-- The tail `(.+)\.$`: the remainder must end in a period; the capture is
everything before it, nonempty and free of line terminators. -/
def dotPlusDotEnd (rest : List Char) : Option (List Char) :=
  if rest.length < 2 then none
  else if rest.getLastD ' ' = '.' then
    let cap := rest.dropLast
    if cap.any isLineTerm then none else some cap
  else none

/-- Alternation over optional literal prefixes, tried in pattern order, each
followed by the `(.+)\.$` tail; on tail failure the next alternative is
tried, as regex backtracking does. -/
def tryAlts : List (List Char) → List Char → Option (List Char)
  | [], _ => none
  | a :: as, rest =>
    match ciStarts a rest with
    | some r =>
      match dotPlusDotEnd r with
      | some cap => some cap
      | none => tryAlts as rest
    | none => tryAlts as rest

/-- PATTERNS.DEATH: `Player (?:was |let |)(.+)\.` anchored on both sides. -/
def deathMatch (s : List Char) : Option (List Char) :=
  match ciStarts ("Player ".data) s with
  | none => none
  | some rest => tryAlts ["was ".data, "let ".data, [] ] rest

/-- PATTERNS.PICKUP: `Picked up (?:a |an |the )?(.+)\.` anchored on both
sides; the optional group is tried before it is skipped. -/
def pickupMatch (s : List Char) : Option (List Char) :=
  match ciStarts ("Picked up ".data) s with
  | none => none
  | some rest => tryAlts ["a ".data, "an ".data, "the ".data, [] ] rest

/-- PATTERNS.SECRET: the whole line equals the fixed sentence, case
insensitively. -/
def secretMatch (s : List Char) : Bool :=
  ciStarts ("A secret is revealed!".data) s = some []

/-- parseLogLine from useGameplayLog: the strict priority chain level enter,
death, pickup, secret, with message as the fallback. -/
def parseLogLine (text : List Char) (time_ms : Nat) : GameEvent :=
  match levelEnterMatch text with
  | some (id, nm) => .level_enter time_ms text (jsUpper id) (jsTrim nm)
  | none =>
    match deathMatch text with
    | some c => .death time_ms text c
    | none =>
      match pickupMatch text with
      | some it => .pickup time_ms text it
      | none =>
        if secretMatch text then .secret time_ms text
        else .message time_ms text

/-- parseRawLog from useGameplayLog: drop blank lines, then classify each
line independently, in order. -/
def parseRawLog (lines : List (Nat × List Char)) : List GameEvent :=
  (lines.filter (fun p => ¬ (jsTrim p.2).isEmpty)).map (fun p => parseLogLine p.2 p.1)

/-! ### SaveContainerReader skill handling (useStats.ts / useSaves.ts) -/

/-- The 5-valued skill enum of statsSchema.ts. -/
inductive SkillLevel where
  | ITYTD
  | HNTR
  | HMP
  | UV
  | NM
deriving DecidableEq, Repr

/-- Modelled from the spec: SKILL_FROM_NUMBER is declared in
src/lib/statsSchema.ts, a file absent from the provided sources (only its
importers are present).  The spec describes the skill as a 5-valued enum
read from a numeric field with expected range 0 to 4; JS object indexing
outside the table yields undefined, modelled as none. -/
def SKILL_FROM_NUMBER (n : Int) : Option SkillLevel :=
  if n = 0 then some .ITYTD
  else if n = 1 then some .HNTR
  else if n = 2 then some .HMP
  else if n = 3 then some .UV
  else if n = 4 then some .NM
  else none

/-- The skill read of parseSaveForStats in useStats.ts: the numeric field
defaults to 2 when absent, then the table lookup falls back to HMP. -/
def statsSkill (field : Option Int) : SkillLevel :=
  (SKILL_FROM_NUMBER (field.getD 2)).getD .HMP

/-- The skill read of parseSaveFile in useSaves.ts: the numeric field
defaults to 2 when absent and is used as is otherwise. -/
def savesSkill (field : Option Int) : Int :=
  field.getD 2

/-! ### StatsAggregator capture deduplication (useStats.ts) -/

/-- Per-level play statistics as written by parseSaveForStats. -/
structure LevelPlayStats where
  id : List Char
  name : List Char
  kills : Int
  totalKills : Int
  items : Int
  totalItems : Int
  secrets : Int
  totalSecrets : Int
  timeTics : Int
deriving DecidableEq, Repr

/-- The session fields produced by parseSaveForStats before a capture
timestamp is attached. -/
structure SessionData where
  sourceFile : List Char
  startLevel : List Char
  skill : SkillLevel
  levels : List LevelPlayStats
deriving DecidableEq, Repr

/-- A persisted play session record. -/
structure PlaySession extends SessionData where
  capturedAt : List Char
deriving DecidableEq, Repr

/-- Colon sanitisation of an ISO timestamp for use as a filename. -/
def sanitizeTimestamp (ts : List Char) : List Char :=
  ts.map (fun c => if c = ':' then '-' else c)

/-- The stats file name derived from a capture timestamp. -/
def sessionFileName (ts : List Char) : List Char :=
  sanitizeTimestamp ts ++ ".json".data

/-- sessionExists from useStats.ts: only the file whose name derives from
the given timestamp is consulted, and the four key fields are compared. -/
def sessionExists (store : List (List Char × PlaySession)) (sess : SessionData)
    (ts : List Char) : Bool :=
  match alLookup (sessionFileName ts) store with
  | none => false
  | some ex =>
    ex.sourceFile = sess.sourceFile && ex.levels.length = sess.levels.length &&
      ex.startLevel = sess.startLevel && ex.skill = sess.skill

/-- The per-save-file capture step of captureStats: skip when sessionExists
reports a duplicate, otherwise write the full session to the timestamp
derived file name. -/
def captureOne (store : List (List Char × PlaySession)) (sess : SessionData)
    (ts : List Char) : List (List Char × PlaySession) :=
  if sessionExists store sess ts then store
  else alSet (sessionFileName ts) ⟨sess, ts⟩ store

/-! ### DownloadManager (useDownload.ts) -/

/-- One manifest record (DownloadedWadSchema). -/
structure DownloadedWad where
  filename : String
  downloadedAt : String
  size : Nat
deriving DecidableEq, Repr

/-- The state the download manager mutates: files on disk keyed by path and
the persisted manifest keyed by slug (every manifest mutation in the source
is followed by saveState, so one map models both the in-memory and the
persisted manifest). -/
structure DLState where
  files : List (String × List Nat)
  manifest : List (String × DownloadedWad)
deriving DecidableEq, Repr

/-- Validation failures of validateDownload. -/
inductive ValErr where
  | invalidZip
  | invalidWad
deriving DecidableEq, Repr

/-- Extension extraction: lower-case the filename, split on periods, take
the last component. -/
def extOf (filename : String) : List Char :=
  (splitSep '.' (jsLower filename.data)).getLastD []

/-- validateDownload from useDownload.ts, applied to the bytes of the file
at the given path: magic-byte checks for the zip and wad families, a no-op
for any other extension. -/
def validateBytes (bytes : List Nat) (filename : String) : Option ValErr :=
  let ext := extOf filename
  if ext = "zip".data ∨ ext = "pk3".data then
    if bytes.length < 2 ∨ bytes.getD 0 0 ≠ 0x50 ∨ bytes.getD 1 0 ≠ 0x4B then
      some .invalidZip
    else none
  else if ext = "wad".data then
    if bytes.length < 4 then some .invalidWad
    else if bytes.take 4 ≠ iwadMagic ∧ bytes.take 4 ≠ pwadMagic then some .invalidWad
    else none
  else none

/-- The errors downloadWad can raise in the modelled paths. -/
inductive DLErr where
  | noUrl
  | urlNotConfigured
  | integrity (e : ValErr)
deriving DecidableEq, Repr

/-- The catalog fields downloadWad reads. -/
structure WadItem where
  slug : String
  downloads : List (String × String)
deriving DecidableEq, Repr

/-- Tauri path join as used here: directory, separator, filename. -/
def joinPath (dir filename : String) : String :=
  dir ++ "/" ++ filename

/-- Result of one downloadWad call: outcome, final state, and whether a
network transfer was performed. -/
structure DLOut where
  res : Except DLErr String
  state : DLState
  transferred : Bool
deriving Repr

/-- The placeholder-URL check of downloadWad. -/
def isPlaceholderUrl (url : String) : Bool :=
  hasRun ("example.com".data) url.data || hasRun ("placeholder".data) url.data

/-- downloadWad from useDownload.ts.  `now` is the clock reading used for
downloadedAt, `net` the bytes the network writes to the temporary part file.
When the final path already exists the file is validated and registered
without a transfer; otherwise the transfer writes the part file, validation
failure deletes it and re-raises, and success renames it into place and
updates the manifest. -/
def downloadWad (dir now : String) (net : List Nat) (wad : WadItem) (s : DLState) :
    DLOut :=
  match wad.downloads.head? with
  | none => ⟨.error .noUrl, s, false⟩
  | some (url, filename) =>
    if isPlaceholderUrl url then ⟨.error .urlNotConfigured, s, false⟩
    else
      let path := joinPath dir filename
      let partPath := path ++ ".part"
      match alLookup path s.files with
      | some bytes =>
        match validateBytes bytes filename with
        | some e => ⟨.error (.integrity e), s, false⟩
        | none =>
          if alHas wad.slug s.manifest then ⟨.ok path, s, false⟩
          else
            ⟨.ok path,
              { s with manifest := alSet wad.slug ⟨filename, now, bytes.length⟩ s.manifest },
              false⟩
      | none =>
        let files1 := alSet partPath net s.files
        match validateBytes net filename with
        | some e =>
          ⟨.error (.integrity e), { s with files := alErase partPath files1 }, true⟩
        | none =>
          let files2 := alSet path net (alErase partPath files1)
          ⟨.ok path,
            { files := files2,
              manifest := alSet wad.slug ⟨filename, now, net.length⟩ s.manifest },
            true⟩

/-- deleteWad from useDownload.ts: a slug absent from the manifest is a
no-op; otherwise the file removal is attempted (`removeOk` tells whether it
succeeds, a failure is only logged) and the manifest entry is removed and
persisted unconditionally. -/
def deleteWad (dir : String) (slug : String) (removeOk : Bool) (s : DLState) :
    DLState :=
  match alLookup slug s.manifest with
  | none => s
  | some info =>
    let files := if removeOk then alErase (joinPath dir info.filename) s.files else s.files
    { files := files, manifest := alErase slug s.manifest }

/-- Value of the last pair with the given key, later pairs taking
precedence: the reference semantics for last-match-wins insertion. -/
def lastMatch {β : Type} (k : List Char) : List (List Char × β) → Option β
  | [] => none
  | p :: rest => (lastMatch k rest).or (if p.1 = k then some p.2 else none)

/-! ### Concrete fixtures used by witnesses and counterexamples -/

/-- A 28-byte WAD: valid PWAD header, one directory entry that fits in the
buffer but whose declared lump range (offset 100, size 50) does not. -/
def truncBuf : List Nat :=
  [80, 87, 65, 68, 1, 0, 0, 0, 12, 0, 0, 0,
   100, 0, 0, 0, 50, 0, 0, 0, 88, 0, 0, 0, 0, 0, 0, 0]

/-- The single entry parsed out of truncBuf. -/
def truncEntries : List WadEntry :=
  [⟨['X'], 100, 50⟩]

/-- Bytes of a UMAPINFO lump naming MAP01 as U. -/
def umapBytesFx : List Nat :=
  ("MAP MAP01\nlevelname = U".data).map Char.toNat

/-- Bytes of a MAPINFO lump naming MAP01 as M. -/
def mapinfoBytesFx : List Nat :=
  ("map MAP01 \"M\"".data).map Char.toNat

/-- An 8-byte null-padded lump name field. -/
def nameField (s : String) : List Nat :=
  ((s.data.map Char.toNat) ++ [0, 0, 0, 0, 0, 0, 0, 0]).take 8

/-- An 80-byte WAD whose directory lists a UMAPINFO lump before a MAPINFO
lump; both define MAP01, with different names. -/
def twoLumpBuf : List Nat :=
  [80, 87, 65, 68, 2, 0, 0, 0, 48, 0, 0, 0] ++ umapBytesFx ++ mapinfoBytesFx ++
    ([12, 0, 0, 0, 23, 0, 0, 0] ++ nameField "UMAPINFO") ++
    ([35, 0, 0, 0, 13, 0, 0, 0] ++ nameField "MAPINFO")

/-- The two directory entries of twoLumpBuf. -/
def twoLumpEntries : List WadEntry :=
  [⟨"UMAPINFO".data, 12, 23⟩, ⟨"MAPINFO".data, 35, 13⟩]

/-- A catalog item fixture with one plain download source. -/
def wadFx : WadItem :=
  ⟨"alpha", [("https://host/y.wad", "y.wad")]⟩

/-- A state holding a committed valid wad file for wadFx, not yet tracked. -/
def stExistsFx : DLState :=
  ⟨[("/lib/y.wad", [80, 87, 65, 68, 1])], []⟩

/-- A session fixture with one level entry. -/
def sessFx : SessionData :=
  ⟨"save01.zds".data, "MAP01".data, .HMP, [⟨"MAP01".data, "MAP01".data, 3, 10, 0, 0, 0, 0, 100⟩]⟩

/-- A store holding sessFx persisted under one capture timestamp. -/
def storeFx : List (List Char × PlaySession) :=
  [(sessionFileName ("2024-01-01T10:00:00.000Z".data),
    ⟨sessFx, "2024-01-01T10:00:00.000Z".data⟩)]

/-- A second, distinct capture timestamp. -/
def tsLaterFx : List Char :=
  "2024-01-02T10:00:00.000Z".data

/-! ### Association list lemmas -/

theorem alLookup_alSet_self {α β : Type} [DecidableEq α] (k : α) (v : β)
    (m : List (α × β)) : alLookup k (alSet k v m) = some v := by
  induction m with
  | nil => simp [alSet, alLookup]
  | cons p rest ih =>
    by_cases h : p.1 = k
    · simp [alSet, h, alLookup]
    · simp [alSet, h, alLookup, ih]

theorem alLookup_alSet_ne {α β : Type} [DecidableEq α] (k' k : α) (v : β)
    (m : List (α × β)) (h : k' ≠ k) :
    alLookup k' (alSet k v m) = alLookup k' m := by
  have h' : ¬ (k = k') := fun hh => h hh.symm
  induction m with
  | nil => simp [alSet, alLookup, h']
  | cons p rest ih =>
    by_cases hp : p.1 = k
    · simp [alSet, alLookup, hp, h']
    · by_cases hq : p.1 = k'
      · simp [alSet, alLookup, hp, hq, h]
      · simp [alSet, alLookup, hp, hq, ih]

theorem alLookup_alErase {α β : Type} [DecidableEq α] (k' k : α) (m : List (α × β)) :
    alLookup k' (alErase k m) = if k' = k then none else alLookup k' m := by
  induction m with
  | nil => simp [alErase, alLookup]
  | cons p rest ih =>
    by_cases hp : p.1 = k
    · by_cases hq : k' = k
      · simpa [alErase, List.filter_cons, hp, hq] using ih
      · have hkk : ¬ (k = k') := fun hh => hq hh.symm
        simpa [alErase, List.filter_cons, hp, hq, alLookup, hkk] using ih
    · by_cases hq : k' = k
      · have hpk : ¬ (p.1 = k') := by
          rw [hq]
          exact hp
        simpa [alErase, List.filter_cons, hp, hq, alLookup, hpk] using ih
      · by_cases hr : p.1 = k'
        · simp [alErase, List.filter_cons, hp, hq, alLookup, hr]
        · simpa [alErase, List.filter_cons, hp, hq, alLookup, hr] using ih

/-! ### Directory loop lemmas -/

theorem wadGo_ok (data : List Nat) (d : Nat) :
    ∀ n i, ∃ es, wadGo data d n i = .ok es := by
  intro n
  induction n with
  | zero => exact fun _ => ⟨[], rfl⟩
  | succ n ih =>
    intro i
    by_cases hg : d + i * 16 + 16 > data.length
    · exact ⟨[], by simp [wadGo, hg]⟩
    · obtain ⟨es, hes⟩ := ih (i + 1)
      have h1 : d + i * 16 + 4 ≤ data.length := by omega
      have h2 : d + i * 16 + 4 + 4 ≤ data.length := by omega
      refine ⟨⟨nameAt data (d + i * 16), le32At data (d + i * 16),
        le32At data (d + i * 16 + 4)⟩ :: es, ?_⟩
      simp [wadGo, hg, getU32, h1, h2, hes, Except.map]

theorem wadGo_bounds (data : List Nat) (d : Nat) :
    ∀ n i es, wadGo data d n i = .ok es →
      ∀ j, j < es.length → d + (i + j) * 16 + 16 ≤ data.length := by
  intro n
  induction n with
  | zero =>
    intro i es h j hj
    simp only [wadGo] at h
    cases h
    simp at hj
  | succ n ih =>
    intro i es h j hj
    by_cases hg : d + i * 16 + 16 > data.length
    · simp [wadGo, hg] at h
      subst h
      simp at hj
    · have h1 : d + i * 16 + 4 ≤ data.length := by omega
      have h2 : d + i * 16 + 4 + 4 ≤ data.length := by omega
      simp only [wadGo, gt_iff_lt, if_neg (by omega : ¬ data.length < d + i * 16 + 16),
        getU32, if_pos h1, if_pos h2] at h
      cases hrec : wadGo data d n (i + 1) with
      | error e =>
        rw [hrec] at h
        simp [Except.map] at h
      | ok es' =>
        rw [hrec] at h
        simp only [Except.map, Except.ok.injEq] at h
        subst h
        cases j with
        | zero => omega
        | succ j' =>
          have hb := ih (i + 1) es' hrec j' (by simpa using Nat.lt_of_succ_lt_succ hj)
          omega

/-! ### Claim C9 -/

/-- C9: the archive directory reader fails exactly when the buffer is
shorter than the fixed 12-byte header or its 4-byte magic matches neither
IWAD nor PWAD; for every other buffer it returns a record list without an
error. -/
theorem claim9_format_error_iff (data : List Nat) :
    isOkE (parseWadDirectory data) = false ↔
      (data.length < 12 ∨ (data.take 4 ≠ iwadMagic ∧ data.take 4 ≠ pwadMagic)) := by
  by_cases h1 : data.length < 12
  · simp [parseWadDirectory, h1, isOkE]
  · by_cases h2 : data.take 4 ≠ iwadMagic ∧ data.take 4 ≠ pwadMagic
    · simp only [parseWadDirectory, if_neg h1, if_pos h2]
      simp [isOkE, h1, h2]
    · obtain ⟨es, hes⟩ := wadGo_ok data (le32At data 8) (le32At data 4) 0
      simp only [parseWadDirectory, if_neg h1, if_neg h2, hes]
      simp [isOkE, h1, h2]

/-! ### Claim C1 -/

/-- C1 counterexample: truncBuf has a valid header and magic, and the single
returned record declares offset 100 and size 50, far past the 28-byte
buffer; the record is returned, not skipped. -/
theorem claim1_oversize_record_cex :
    parseWadDirectory truncBuf = .ok truncEntries ∧
      ∃ e ∈ truncEntries, truncBuf.length < e.offset + e.size := by
  refine ⟨by rfl, ⟨⟨['X'], 100, 50⟩, by decide, by decide⟩⟩

/-- C1 (amended): every record returned by the archive directory reader has
its 16-byte directory slot inside the buffer, and a record whose slot would
read past the end stops the loop non-fatally; the declared offset+size range
of a record itself is not checked against the buffer length. -/
theorem claim1_returned_slots_in_bounds (data : List Nat) (es : List WadEntry)
    (h : parseWadDirectory data = .ok es) :
    ∀ j, j < es.length → le32At data 8 + j * 16 + 16 ≤ data.length := by
  by_cases h1 : data.length < 12
  · simp [parseWadDirectory, h1] at h
  · by_cases h2 : data.take 4 ≠ iwadMagic ∧ data.take 4 ≠ pwadMagic
    · simp only [parseWadDirectory, if_neg h1, if_pos h2] at h
      cases h
    · simp only [parseWadDirectory, if_neg h1, if_neg h2] at h
      intro j hj
      have hb := wadGo_bounds data (le32At data 8) (le32At data 4) 0 es h j hj
      omega

/-- C1 witness: the amended statement evaluated on truncBuf at index 0. -/
theorem claim1_returned_slots_in_bounds_wit :
    le32At truncBuf 8 + 0 * 16 + 16 ≤ truncBuf.length :=
  claim1_returned_slots_in_bounds truncBuf truncEntries (by rfl) 0 (by decide)

/-! ### Fold lemmas for Map.set and insert-if-absent -/

theorem alLookup_foldl_alSet {β : Type} (k : List Char) :
    ∀ (l acc : List (List Char × β)),
      alLookup k (l.foldl (fun m p => alSet p.1 p.2 m) acc) =
        (lastMatch k l).or (alLookup k acc) := by
  intro l
  induction l with
  | nil => intro acc; simp [lastMatch, Option.none_or]
  | cons p rest ih =>
    intro acc
    have hstep : alLookup k (alSet p.1 p.2 acc) =
        (if p.1 = k then some p.2 else none).or (alLookup k acc) := by
      by_cases hp : p.1 = k
      · subst hp
        simp [alLookup_alSet_self, Option.or]
      · simp [alLookup_alSet_ne k p.1 p.2 acc (fun hh => hp hh.symm), hp, Option.none_or]
    calc alLookup k ((p :: rest).foldl (fun m q => alSet q.1 q.2 m) acc)
        = alLookup k (rest.foldl (fun m q => alSet q.1 q.2 m) (alSet p.1 p.2 acc)) := rfl
      _ = (lastMatch k rest).or (alLookup k (alSet p.1 p.2 acc)) := ih _
      _ = (lastMatch k rest).or ((if p.1 = k then some p.2 else none).or (alLookup k acc)) := by
          rw [hstep]
      _ = (lastMatch k (p :: rest)).or (alLookup k acc) := by
          rw [lastMatch, Option.or_assoc]

theorem firstHit_cons (k : List Char) (m : LMap) (ms : List LMap) :
    firstHit k (m :: ms) = (alLookup k m).or (firstHit k ms) := by
  cases h : alLookup k m with
  | none => simp [firstHit, h, Option.none_or]
  | some v => simp [firstHit, h, Option.or]

theorem alLookup_mergeIfAbsent (k : List Char) :
    ∀ (m acc : LMap),
      alLookup k (mergeIfAbsent acc m) = (alLookup k acc).or (alLookup k m) := by
  intro m
  induction m with
  | nil => intro acc; simp [mergeIfAbsent, alLookup, Option.or_none]
  | cons p rest ih =>
    intro acc
    have hfold : mergeIfAbsent acc (p :: rest) = mergeIfAbsent (setIfAbsent acc p) rest := rfl
    rw [hfold, ih]
    by_cases hh : alHas p.1 acc
    · have hacc : ∃ v, alLookup p.1 acc = some v := by
        cases hv : alLookup p.1 acc with
        | none => simp [alHas, hv] at hh
        | some v => exact ⟨v, rfl⟩
      obtain ⟨v, hv⟩ := hacc
      by_cases hp : p.1 = k
      · subst hp
        simp [setIfAbsent, hh, hv, alLookup, Option.or]
      · simp [setIfAbsent, hh, alLookup, hp]
    · by_cases hp : p.1 = k
      · subst hp
        have hacc : alLookup p.1 acc = none := by
          cases hv : alLookup p.1 acc with
          | none => rfl
          | some v => simp [alHas, hv] at hh
        simp [setIfAbsent, hh, alLookup_alSet_self, hacc, alLookup, Option.none_or, Option.or]
      · have hne : k ≠ p.1 := fun hh2 => hp hh2.symm
        simp [setIfAbsent, hh, alLookup_alSet_ne k p.1 p.2 acc hne, alLookup, hp]

theorem alLookup_extract_foldl (data : List Nat) (k : List Char) :
    ∀ (es : List WadEntry) (acc : LMap),
      alLookup k (es.foldl (extractStep data) acc) =
        (alLookup k acc).or
          (firstHit k ((es.filter (fun e => isMapinfoEntry e)).map (parseLump data))) := by
  intro es
  induction es with
  | nil => intro acc; simp [firstHit, Option.or_none]
  | cons e rest ih =>
    intro acc
    by_cases hsel : isMapinfoEntry e
    · have hstep : (e :: rest).foldl (extractStep data) acc =
          rest.foldl (extractStep data) (mergeIfAbsent acc (parseLump data e)) := by
        simp [List.foldl_cons, extractStep, hsel]
      rw [hstep, ih, alLookup_mergeIfAbsent, List.filter_cons_of_pos (by simpa using hsel),
        List.map_cons, firstHit_cons, Option.or_assoc]
    · have hstep : (e :: rest).foldl (extractStep data) acc =
          rest.foldl (extractStep data) acc := by
        simp [List.foldl_cons, extractStep, hsel]
      rw [hstep, ih, List.filter_cons_of_neg (by simpa using hsel)]

/-! ### Claim C5 -/

/-- C5: in Dialect A every `map id name` occurrence contributes one entry
under the upper-cased id, with the last occurrence of an id in the same text
winning (the table lookup equals the last matching scan result); and the
single line with a lower-case id `map map01` yields exactly the table
MAP01 to Entryway. -/
theorem claim5_mapinfo_last_match_wins :
    (∀ content k, alLookup k (parseMapinfo content) = lastMatch k (mapinfoScan content)) ∧
      parseMapinfo ("map map01 \"Entryway\"".data) = [("MAP01".data, "Entryway".data)] := by
  constructor
  · intro content k
    rw [parseMapinfo, alLookup_foldl_alSet]
    simp [alLookup, Option.or_none]
  · decide

/-! ### Claim C6 -/

/-- C6 counterexample: in twoLumpBuf the directory lists a UMAPINFO lump
before a MAPINFO lump; the MAPINFO lump alone names MAP01 as M, yet the
merged extraction keeps the UMAPINFO name U, so MAPINFO-family lumps are not
scanned before UMAPINFO: precedence is purely directory order. -/
theorem claim6_dialect_priority_cex :
    extractLevelNamesFromData twoLumpBuf = .ok [("MAP01".data, "U".data)] ∧
      alLookup ("MAP01".data) (parseMapinfo (utf8Decode mapinfoBytesFx)) =
        some ("M".data) ∧
      ("U".data : List Char) ≠ "M".data := by
  exact ⟨by rfl, by rfl, by decide⟩

/-- C6 (amended): merging is first-writer-wins in the scan order over the
archive directory: the name table lookup equals the first hit over the
parsed tables of the selected metadata lumps, taken in directory order;
there is no fixed MAPINFO-before-EMAPINFO-before-UMAPINFO priority. -/
theorem claim6_first_writer_wins (data : List Nat) (es : List WadEntry) (k : List Char)
    (h : parseWadDirectory data = .ok es) :
    extractLevelNamesFromData data = .ok (es.foldl (extractStep data) []) ∧
      alLookup k (es.foldl (extractStep data) []) =
        firstHit k ((es.filter (fun e => isMapinfoEntry e)).map (parseLump data)) := by
  constructor
  · simp [extractLevelNamesFromData, h, Except.map]
  · have := alLookup_extract_foldl data k es []
    simpa [alLookup, Option.none_or] using this

/-- C6 witness: the amended statement evaluated on twoLumpBuf at MAP01. -/
theorem claim6_first_writer_wins_wit :
    extractLevelNamesFromData twoLumpBuf =
        .ok (twoLumpEntries.foldl (extractStep twoLumpBuf) []) ∧
      alLookup ("MAP01".data) (twoLumpEntries.foldl (extractStep twoLumpBuf) []) =
        firstHit ("MAP01".data)
          ((twoLumpEntries.filter (fun e => isMapinfoEntry e)).map (parseLump twoLumpBuf)) :=
  claim6_first_writer_wins twoLumpBuf twoLumpEntries ("MAP01".data) (by rfl)

/-! ### Claim C4 -/

/-- C4: the classifier emits exactly one event per non-blank line, in order;
each line runs through the strict priority chain level enter, death, pickup,
secret, with the first match winning and everything else a message; and the
line about being splayed by an alien yields a death event whose cause is the
free text after the verb clause. -/
theorem claim4_classifier_priority_chain :
    (∀ lines, parseRawLog lines =
        (lines.filter (fun p => ¬ (jsTrim p.2).isEmpty)).map
          (fun p => parseLogLine p.2 p.1)) ∧
    (∀ t s id nm, levelEnterMatch s = some (id, nm) →
        parseLogLine s t = .level_enter t s (jsUpper id) (jsTrim nm)) ∧
    (∀ t s c, levelEnterMatch s = none → deathMatch s = some c →
        parseLogLine s t = .death t s c) ∧
    (∀ t s it, levelEnterMatch s = none → deathMatch s = none →
        pickupMatch s = some it → parseLogLine s t = .pickup t s it) ∧
    (∀ t s, levelEnterMatch s = none → deathMatch s = none → pickupMatch s = none →
        secretMatch s = true → parseLogLine s t = .secret t s) ∧
    (∀ t s, levelEnterMatch s = none → deathMatch s = none → pickupMatch s = none →
        secretMatch s = false → parseLogLine s t = .message t s) ∧
    parseLogLine ("Player was splayed by an alien.".data) 0 =
      .death 0 ("Player was splayed by an alien.".data) ("splayed by an alien".data) := by
  refine ⟨fun _ => rfl, ?_, ?_, ?_, ?_, ?_, by decide⟩
  · intro t s id nm h
    simp [parseLogLine, h]
  · intro t s c h1 h2
    simp [parseLogLine, h1, h2]
  · intro t s it h1 h2 h3
    simp [parseLogLine, h1, h2, h3]
  · intro t s h1 h2 h3 h4
    simp [parseLogLine, h1, h2, h3, h4]
  · intro t s h1 h2 h3 h4
    simp [parseLogLine, h1, h2, h3, h4]

/-- C4 witness: the death branch of the chain applied to the splayed line. -/
theorem claim4_classifier_priority_chain_wit :
    parseLogLine ("Player was splayed by an alien.".data) 7 =
      .death 7 ("Player was splayed by an alien.".data) ("splayed by an alien".data) :=
  claim4_classifier_priority_chain.2.2.1 7 ("Player was splayed by an alien.".data)
    ("splayed by an alien".data) (by decide) (by decide)

/-! ### Claim C7 -/

/-- C7 counterexample: a numeric skill of 7 is outside 0 to 4; the saves
reader keeps the raw 7 instead of defaulting to the middle 2, and the stats
reader maps it to the default HMP rather than the clamped value NM, so
out-of-range values are not clamped into range. -/
theorem claim7_out_of_range_not_clamped_cex :
    savesSkill (some 7) = 7 ∧ savesSkill (some 7) ≠ 2 ∧
      statsSkill (some 7) = .HMP ∧ SKILL_FROM_NUMBER 4 = some .NM ∧
      statsSkill (some 7) ≠ .NM := by
  refine ⟨rfl, by decide, rfl, rfl, by decide⟩

/-- C7 (amended): an absent skill field defaults to the middle difficulty in
both readers; an out-of-range value is never rejected, but it is not
clamped: the stats reader maps it to the middle default and the saves
reader passes the raw value through. -/
theorem claim7_skill_default_not_clamped :
    statsSkill none = .HMP ∧ savesSkill none = 2 ∧
      (∀ n : Int, n < 0 ∨ 4 < n → statsSkill (some n) = .HMP) ∧
      (∀ n : Int, savesSkill (some n) = n) := by
  refine ⟨rfl, rfl, ?_, fun _ => rfl⟩
  intro n hn
  have h0 : ¬ (n = 0) := by omega
  have h1 : ¬ (n = 1) := by omega
  have h2 : ¬ (n = 2) := by omega
  have h3 : ¬ (n = 3) := by omega
  have h4 : ¬ (n = 4) := by omega
  simp [statsSkill, SKILL_FROM_NUMBER, h0, h1, h2, h3, h4]

/-- C7 witness: the out-of-range branch at skill 7. -/
theorem claim7_skill_default_not_clamped_wit :
    statsSkill (some 7) = .HMP :=
  claim7_skill_default_not_clamped.2.2.1 7 (by omega)

/-! ### Claim C8 -/

/-- C8 counterexample: storeFx persists a record sharing source-file name,
level count, start level and skill with the snapshot sessFx, but under an
earlier capture timestamp; capturing the snapshot at the later timestamp is
not discarded, a second record is written. -/
theorem claim8_dedup_scope_cex :
    (∃ p ∈ storeFx, p.2.sourceFile = sessFx.sourceFile ∧
        p.2.levels.length = sessFx.levels.length ∧
        p.2.startLevel = sessFx.startLevel ∧ p.2.skill = sessFx.skill) ∧
      captureOne storeFx sessFx tsLaterFx ≠ storeFx ∧
      (captureOne storeFx sessFx tsLaterFx).length = 2 := by
  refine ⟨by decide, by decide, by decide⟩

/-- C8 (amended): a snapshot is discarded exactly when the record stored
under the file name derived from its own timestamp exists and shares the
four key fields; otherwise the session is written under that file name;
records stored under other timestamps are never consulted. -/
theorem claim8_dedup_same_timestamp_only
    (store : List (List Char × PlaySession)) (sess : SessionData) (ts : List Char) :
    (sessionExists store sess ts = true → captureOne store sess ts = store) ∧
      (sessionExists store sess ts = false →
        captureOne store sess ts = alSet (sessionFileName ts) ⟨sess, ts⟩ store) ∧
      (∀ store', alLookup (sessionFileName ts) store' = alLookup (sessionFileName ts) store →
        sessionExists store' sess ts = sessionExists store sess ts) := by
  refine ⟨fun h => by simp [captureOne, h], fun h => by simp [captureOne, h], ?_⟩
  intro store' h
  simp [sessionExists, h]

/-- C8 witness: the non-duplicate branch on the fixtures. -/
theorem claim8_dedup_same_timestamp_only_wit :
    captureOne storeFx sessFx tsLaterFx =
      alSet (sessionFileName tsLaterFx) ⟨sessFx, tsLaterFx⟩ storeFx :=
  (claim8_dedup_same_timestamp_only storeFx sessFx tsLaterFx).2.1 (by decide)

/-! ### String path lemma -/

theorem string_ne_append_part (p : String) : p ≠ p ++ ".part" := by
  intro h
  have hl := congrArg String.length h
  rw [String.length_append] at hl
  have h5 : (".part" : String).length = 5 := rfl
  omega

/-! ### Claim C2 -/

/-- C2: when the transferred temporary file fails magic-byte validation the
call fails with that validation error, the temporary part file has been
deleted, no final-named file exists on disk, the slug has gained no manifest
entry, and the transfer did run. -/
theorem claim2_failed_validation_cleanup
    (dir now url filename slug : String) (net : List Nat)
    (rest : List (String × String)) (s : DLState) (e : ValErr)
    (hurl : isPlaceholderUrl url = false)
    (hfile : alLookup (joinPath dir filename) s.files = none)
    (hman : alLookup slug s.manifest = none)
    (hval : validateBytes net filename = some e) :
    (downloadWad dir now net ⟨slug, (url, filename) :: rest⟩ s).res =
        .error (.integrity e) ∧
      alLookup (joinPath dir filename ++ ".part")
        (downloadWad dir now net ⟨slug, (url, filename) :: rest⟩ s).state.files = none ∧
      alLookup (joinPath dir filename)
        (downloadWad dir now net ⟨slug, (url, filename) :: rest⟩ s).state.files = none ∧
      alLookup slug
        (downloadWad dir now net ⟨slug, (url, filename) :: rest⟩ s).state.manifest = none ∧
      (downloadWad dir now net ⟨slug, (url, filename) :: rest⟩ s).transferred = true := by
  have hred : downloadWad dir now net ⟨slug, (url, filename) :: rest⟩ s =
      DLOut.mk (.error (.integrity e))
        (DLState.mk
          (alErase (joinPath dir filename ++ ".part")
            (alSet (joinPath dir filename ++ ".part") net s.files))
          s.manifest)
        true := by
    simp [downloadWad, hurl, hfile, hval]
  rw [hred]
  refine ⟨rfl, ?_, ?_, hman, rfl⟩
  · simp [alLookup_alErase]
  · rw [alLookup_alErase, if_neg (string_ne_append_part (joinPath dir filename)),
      alLookup_alSet_ne _ _ _ _ (string_ne_append_part (joinPath dir filename))]
    exact hfile

/-- C2 witness: a 3-byte download for a wad-extension file fails validation
and leaves a clean state. -/
theorem claim2_failed_validation_cleanup_wit :
    (downloadWad "/lib" "T0" [1, 2, 3] ⟨"alpha", [("https://host/y.wad", "y.wad")]⟩
        ⟨[], []⟩).res = .error (.integrity .invalidWad) ∧
      alLookup (joinPath "/lib" "y.wad" ++ ".part")
        (downloadWad "/lib" "T0" [1, 2, 3] ⟨"alpha", [("https://host/y.wad", "y.wad")]⟩
          ⟨[], []⟩).state.files = none ∧
      alLookup (joinPath "/lib" "y.wad")
        (downloadWad "/lib" "T0" [1, 2, 3] ⟨"alpha", [("https://host/y.wad", "y.wad")]⟩
          ⟨[], []⟩).state.files = none ∧
      alLookup "alpha"
        (downloadWad "/lib" "T0" [1, 2, 3] ⟨"alpha", [("https://host/y.wad", "y.wad")]⟩
          ⟨[], []⟩).state.manifest = none ∧
      (downloadWad "/lib" "T0" [1, 2, 3] ⟨"alpha", [("https://host/y.wad", "y.wad")]⟩
        ⟨[], []⟩).transferred = true :=
  claim2_failed_validation_cleanup "/lib" "T0" "https://host/y.wad" "y.wad" "alpha"
    [1, 2, 3] [] ⟨[], []⟩ .invalidWad (by decide) rfl rfl (by decide)

/-! ### Claim C3 -/

theorem downloadWad_existing
    (dir now url filename slug : String) (net : List Nat)
    (rest : List (String × String)) (s : DLState) (bytes : List Nat)
    (hurl : isPlaceholderUrl url = false)
    (hfile : alLookup (joinPath dir filename) s.files = some bytes)
    (hval : validateBytes bytes filename = none) :
    (downloadWad dir now net ⟨slug, (url, filename) :: rest⟩ s).res =
        .ok (joinPath dir filename) ∧
      (downloadWad dir now net ⟨slug, (url, filename) :: rest⟩ s).transferred = false ∧
      (downloadWad dir now net ⟨slug, (url, filename) :: rest⟩ s).state.files = s.files := by
  by_cases hh : alHas slug s.manifest
  · have hred : downloadWad dir now net ⟨slug, (url, filename) :: rest⟩ s =
        ⟨.ok (joinPath dir filename), s, false⟩ := by
      simp [downloadWad, hurl, hfile, hval, hh]
    rw [hred]
    exact ⟨rfl, rfl, rfl⟩
  · have hred : downloadWad dir now net ⟨slug, (url, filename) :: rest⟩ s =
        ⟨.ok (joinPath dir filename),
          { s with manifest := alSet slug ⟨filename, now, bytes.length⟩ s.manifest },
          false⟩ := by
      simp [downloadWad, hurl, hfile, hval, hh]
    rw [hred]
    exact ⟨rfl, rfl, rfl⟩

/-- C3: when the final file already exists on disk and passes validation,
the call returns that path without a network transfer and without touching
the disk, and a second call returns the same path, again without a
transfer. -/
theorem claim3_committed_noop
    (dir now now2 url filename slug : String) (net net2 : List Nat)
    (rest : List (String × String)) (s : DLState) (bytes : List Nat)
    (hurl : isPlaceholderUrl url = false)
    (hfile : alLookup (joinPath dir filename) s.files = some bytes)
    (hval : validateBytes bytes filename = none) :
    (downloadWad dir now net ⟨slug, (url, filename) :: rest⟩ s).res =
        .ok (joinPath dir filename) ∧
      (downloadWad dir now net ⟨slug, (url, filename) :: rest⟩ s).transferred = false ∧
      (downloadWad dir now2 net2 ⟨slug, (url, filename) :: rest⟩
          (downloadWad dir now net ⟨slug, (url, filename) :: rest⟩ s).state).res =
        .ok (joinPath dir filename) ∧
      (downloadWad dir now2 net2 ⟨slug, (url, filename) :: rest⟩
          (downloadWad dir now net ⟨slug, (url, filename) :: rest⟩ s).state).transferred =
        false := by
  obtain ⟨h1, h2, h3⟩ :=
    downloadWad_existing dir now url filename slug net rest s bytes hurl hfile hval
  have hfile2 : alLookup (joinPath dir filename)
      (downloadWad dir now net ⟨slug, (url, filename) :: rest⟩ s).state.files =
        some bytes := by
    rw [h3]
    exact hfile
  obtain ⟨h1', h2', _⟩ :=
    downloadWad_existing dir now2 url filename slug net2 rest _ bytes hurl hfile2 hval
  exact ⟨h1, h2, h1', h2'⟩

/-- C3 witness: both calls on a state already holding a valid wad file. -/
theorem claim3_committed_noop_wit :
    (downloadWad "/lib" "T0" [9] ⟨"alpha", [("https://host/y.wad", "y.wad")]⟩
        stExistsFx).res = .ok (joinPath "/lib" "y.wad") ∧
      (downloadWad "/lib" "T0" [9] ⟨"alpha", [("https://host/y.wad", "y.wad")]⟩
        stExistsFx).transferred = false ∧
      (downloadWad "/lib" "T1" [8] ⟨"alpha", [("https://host/y.wad", "y.wad")]⟩
          (downloadWad "/lib" "T0" [9] ⟨"alpha", [("https://host/y.wad", "y.wad")]⟩
            stExistsFx).state).res = .ok (joinPath "/lib" "y.wad") ∧
      (downloadWad "/lib" "T1" [8] ⟨"alpha", [("https://host/y.wad", "y.wad")]⟩
          (downloadWad "/lib" "T0" [9] ⟨"alpha", [("https://host/y.wad", "y.wad")]⟩
            stExistsFx).state).transferred = false :=
  claim3_committed_noop "/lib" "T0" "T1" "https://host/y.wad" "y.wad" "alpha" [9] [8]
    [] stExistsFx [80, 87, 65, 68, 1] (by decide) (by decide) (by decide)

/-! ### Claim C10 -/

/-- C10: deleting a slug present in the manifest always removes its manifest
entry, also when the file removal fails, in which case the disk is left
unchanged; deleting a slug absent from the manifest changes nothing. -/
theorem claim10_delete_semantics (dir slug : String) (s : DLState) :
    (∀ info removeOk, alLookup slug s.manifest = some info →
        alLookup slug (deleteWad dir slug removeOk s).manifest = none) ∧
      (∀ info, alLookup slug s.manifest = some info →
        (deleteWad dir slug false s).files = s.files) ∧
      (alLookup slug s.manifest = none → ∀ removeOk, deleteWad dir slug removeOk s = s) := by
  refine ⟨?_, ?_, ?_⟩
  · intro info removeOk h
    simp [deleteWad, h, alLookup_alErase]
  · intro info h
    simp [deleteWad, h]
  · intro h removeOk
    simp [deleteWad, h]

/-- C10 witness: a failed file removal still drops the manifest entry. -/
theorem claim10_delete_semantics_wit :
    alLookup "alpha"
      (deleteWad "/lib" "alpha" false
        ⟨[("/lib/y.wad", [0])], [("alpha", ⟨"y.wad", "T0", 1⟩)]⟩).manifest = none :=
  (claim10_delete_semantics "/lib" "alpha"
      ⟨[("/lib/y.wad", [0])], [("alpha", ⟨"y.wad", "T0", 1⟩)]⟩).1
    ⟨"y.wad", "T0", 1⟩ false (by decide)

end RDL
